import Mathlib

/-!
Verification development for the libtropic host-side driver excerpt:
the UNIX USB-dongle transport port (`src/hal/port/unix/lt_port_unix_usb_dongle.c`)
and the secure-session surface exercised by `src/examples/lt_ex_hello_world.c`
and `src/tests/functional/lt_test_rev_ping.c`.

The port functions are embedded directly from the C source as pure functions:
the serial port is modelled by a stream of read events (`ReadEv`) and a flag
telling whether the blocking write succeeds; buffers are `List Nat` of byte
values.  The protocol core (frame codec, handshake engine, secure command
layer, session handle) is not part of the source excerpt, so those parts are
modelled from the specification text, with each such definition marked
`Modelled from the spec:` in its doc comment.
-/

/-- Return codes of `lt_ret_t`.  The enum itself lives in a header outside the
excerpt; the constructors named `LT_*` up to `LT_L1_DATA_LEN_ERROR` are the
values the excerpted source uses, the remaining constructors model the error
taxonomy of spec section 7 for the spec-modelled protocol core. -/
inductive LtRet where
  | LT_OK
  | LT_FAIL
  | LT_L1_SPI_ERROR
  | LT_L1_DATA_LEN_ERROR
  | LT_TRANSPORT_ERROR
  | LT_TIMEOUT
  | LT_INTEGRITY_CHECK_FAILED
  | LT_PAYLOAD_TOO_LARGE
  | LT_AUTHENTICATION_FAILED
  | LT_SECURE_CHANNEL_VIOLATION
  | LT_NO_ACTIVE_SESSION
  deriving DecidableEq, Repr

/-- One outcome of the underlying POSIX `read(fd, buf, count)` call as
configured by `lt_port_init` (VTIME=1, VMIN=0): either an error (`read`
returns a negative value) or a chunk of bytes; an empty chunk models the
100 ms timeout case in which `read` returns 0. -/
inductive ReadEv where
  | err
  | chunk (data : List Nat)

/-- Overwrite `buf` starting at position `pos` with `data`, leaving all other
positions alone; this is what a successful `read(fd, buffer + received, ...)`
does to the caller's buffer. -/
def writeAt (buf : List Nat) (pos : Nat) (data : List Nat) : List Nat :=
  buf.take pos ++ data ++ buf.drop (pos + data.length)

/-- Result of `read_port`: `res = none` models the C return value `-1`,
`res = some n` the count of bytes read; `buf` is the caller's buffer after the
call.  `sawTimeout` and `sawErr` are ghost observations recording which exit
path ran: `sawTimeout` is set exactly by the `r == 0` break (a zero-length
read), `sawErr` exactly by the `r < 0` error return. -/
structure ReadPortResult where
  res : Option Nat
  buf : List Nat
  sawTimeout : Bool
  sawErr : Bool
  deriving DecidableEq, Repr

/-- Loop body of `read_port` (lt_port_unix_usb_dongle.c lines 40-59), fuelled:
while `received < size`, issue one `read` for the remaining bytes.  An error
returns `-1`; a zero-length read breaks out of the loop; otherwise the chunk
(at most the requested `size - received` bytes, which is what the kernel
contract guarantees, hence the `take`) lands in the buffer and the loop
continues.  Each productive iteration strictly increases `received`, so fuel
`size - received` suffices; the fuel-0 fallback is only reachable with
`received ≥ size`, where it agrees with the loop exit. -/
def read_port_go (evs : Nat → ReadEv) (size : Nat) :
    Nat → Nat → Nat → List Nat → ReadPortResult
  | 0, _, received, buf => ⟨some received, buf, false, false⟩
  | fuel + 1, k, received, buf =>
    if received < size then
      match evs k with
      | ReadEv.err => ⟨none, buf, false, true⟩
      | ReadEv.chunk d =>
        if (d.take (size - received)).isEmpty then ⟨some received, buf, true, false⟩
        else
          read_port_go evs size fuel (k + 1) (received + (d.take (size - received)).length)
            (writeAt buf received (d.take (size - received)))
    else ⟨some received, buf, false, false⟩

/-- Embedding of `read_port` (lt_port_unix_usb_dongle.c lines 40-59): read
`size` bytes into `buf`, retrying until all bytes arrived, an error occurred,
or a zero-length read (timeout) happened. -/
def read_port (evs : Nat → ReadEv) (size : Nat) (buf : List Nat) : ReadPortResult :=
  read_port_go evs size size 0 0 buf

/-- Embedding of `write_port` (lt_port_unix_usb_dongle.c lines 24-33): the
blocking `write` either transfers all requested bytes (C result 0) or the
call counts as failed (C result -1); `writeOk` says which happened. -/
def write_port (writeOk : Bool) : Int := if writeOk then 0 else -1

/-- Embedding of `lt_port_spi_csn_low` (lines 155-160): chip select is
handled by the dongle during the SPI transfer, so the function performs no
I/O and always returns LT_OK. -/
def lt_port_spi_csn_low : LtRet := LtRet.LT_OK

/-- Byte values of the five control characters "CS=0\n" written by
`lt_port_spi_csn_high` (line 166). -/
def csHighCmd : List Nat := [67, 83, 61, 48, 10]

/-- Byte values of the reply "OK\r\n" that `memcmp` compares against
(line 177). -/
def okReply : List Nat := [79, 75, 13, 10]

/-- Embedding of `lt_port_spi_csn_high` (lines 162-181): write the five
control bytes "CS=0\n"; on a failed write return LT_L1_SPI_ERROR; otherwise
read 4 bytes with `read_port` into a 4-byte stack buffer whose initial
(uninitialized in C) contents are `buff0`; return LT_OK only when exactly 4
bytes arrived and the first 4 buffer bytes equal "OK\r\n". -/
def lt_port_spi_csn_high (writeOk : Bool) (evs : Nat → ReadEv) (buff0 : List Nat) : LtRet :=
  if write_port writeOk ≠ 0 then LtRet.LT_L1_SPI_ERROR
  else
    match (read_port evs 4 buff0).res with
    | some n =>
      if n ≠ 4 then LtRet.LT_L1_SPI_ERROR
      else if (read_port evs 4 buff0).buf.take 4 = okReply then LtRet.LT_OK
      else LtRet.LT_L1_SPI_ERROR
    | none => LtRet.LT_L1_SPI_ERROR

/-- Character code of the upper-case hex digit for a nibble, as produced by
sprintf with conversion %02X. -/
def hexDigitU (n : Nat) : Nat := if n < 10 then 48 + n else 55 + n

/-- The two characters sprintf("%02X", b) produces for one byte b < 256. -/
def encodeByte (b : Nat) : List Nat := [hexDigitU (b / 16), hexDigitU (b % 16)]

/-- Characters the encode loop of `lt_port_spi_transfer` (line 195) leaves in
buffered_chars for a run of bytes: two upper-case hex digits per byte. -/
def hexEncode : List Nat → List Nat
  | [] => []
  | b :: bs => encodeByte b ++ hexEncode bs

/-- Value of a hex digit character, as accepted by the %x conversion of
sscanf (upper or lower case); none for any other character. -/
def hexVal (c : Nat) : Option Nat :=
  if 48 ≤ c ∧ c ≤ 57 then some (c - 48)
  else if 65 ≤ c ∧ c ≤ 70 then some (c - 55)
  else if 97 ≤ c ∧ c ≤ 102 then some (c - 87)
  else none

/-- Leading-whitespace skipping performed by the %x conversion of sscanf
(space and the five C control whitespace characters 9..13).  A NUL byte
(value 0) is not whitespace, so the scan stops at the string terminator. -/
def skipWs : List Nat → List Nat
  | [] => []
  | c :: cs => if c = 32 ∨ (9 ≤ c ∧ c ≤ 13) then skipWs cs else c :: cs

/-- Model of sscanf(s, "%2hhx", &out) (line 215): skip leading whitespace,
then convert at most two hex digit characters; the conversion fails (and
stores nothing) when the first non-whitespace character is not a hex digit
or the string has ended. -/
def scanHex2 (s : List Nat) : Option Nat :=
  match skipWs s with
  | [] => none
  | c1 :: rest =>
    match hexVal c1 with
    | none => none
    | some v1 =>
      match rest with
      | [] => some v1
      | c2 :: _ =>
        match hexVal c2 with
        | none => some v1
        | some v2 => some (16 * v1 + v2)

/-- The 2*txLen+2 characters `lt_port_spi_transfer` hands to write_port
(lines 194-202): the hex encoding of l2_buff[offset .. offset+txLen) followed
by the control characters 'x' (120) and a newline (10). -/
def spiTxChars (l2buff : List Nat) (offset txLen : Nat) : List Nat :=
  hexEncode ((l2buff.drop offset).take txLen) ++ [120, 10]

/-- The 512-byte local array buffered_chars just after the encode phase,
modelled with exactly 512 entries like the C array: its first 2*txLen+2 bytes
are the transmit characters whenever they fit (txLen ≤ 255; beyond that the
encode phase itself leaves the array, which spiEncodeOob reports and the
truncation here never reaches a claim), the rest is the zero initialization
of line 193. -/
def spiBufferedChars (l2buff : List Nat) (offset txLen : Nat) : List Nat :=
  (spiTxChars l2buff offset txLen ++ List.replicate 512 0).take 512

/-- Start indices of the sscanf reads of the decode loop (lines 214-216):
the C loop runs count over [0, 2*txLen) - twice the transferred byte count -
and reads at &buffered_chars[2*count], so its last start index is 4*txLen-2,
beyond the 512-byte array for every txLen ≥ 129. -/
def spiDecodeReadIdx (txLen : Nat) : List Nat :=
  (List.range (2 * txLen)).map (fun count => 2 * count)

/-- Out-of-bounds indicator for the decode-phase reads: true when some sscanf
start index of the decode loop lies beyond the 512-byte buffered_chars array,
i.e. the C program reads out of bounds (undefined behavior). -/
def spiDecodeReadOob (txLen : Nat) : Bool :=
  (spiDecodeReadIdx txLen).any (fun j => decide (512 ≤ j))

/-- Out-of-bounds indicator for the encode phase: true when the hex and
control characters would be written beyond the 512-byte buffered_chars array
(2*txLen+2 > 512, i.e. txLen ≥ 256; the read-back of the same length then
also overflows it), or when the encode loop would read l2_buff[i+offset]
beyond the handle's buffer. -/
def spiEncodeOob (l2buff : List Nat) (offset txLen : Nat) : Bool :=
  decide (512 < 2 * txLen + 2) || decide (l2buff.length < offset + txLen)

/-- Decode loop of `lt_port_spi_transfer` (lines 214-216): for count in
[0, 2*txLen), run sscanf "%2hhx" at buffered_chars + 2*count and store a
matched byte at l2_buff[count+offset]; an iteration whose conversion fails
stores nothing.  Returns the buffer and an out-of-bounds flag for the
stores: a matched store whose index count+offset leaves l2_buff is undefined
behavior in C; the model records it in the flag (the List.set it also
performs is then meaningless).  The out-of-bounds reads of the same loop are
recorded separately by spiDecodeReadOob; the returned buffer is meaningful
only when both indicators are false. -/
def spiDecodeLoop (buffered : List Nat) (offset txLen : Nat) (l2buff : List Nat) :
    List Nat × Bool :=
  (List.range (2 * txLen)).foldl
    (fun acc count =>
      match scanHex2 (buffered.drop (2 * count)) with
      | some v =>
        (acc.1.set (count + offset) v, acc.2 || decide (acc.1.length ≤ count + offset))
      | none => acc)
    (l2buff, false)

/-- Result of `lt_port_spi_transfer`: the return code, the handle's l2_buff
after the call, and ghost observations of the execution: `wrote` is the
character string handed to write_port (none if the call was rejected before
any transmission), `readReq` the number of bytes requested from read_port (0
if no read was attempted), and `oob` is true when the execution accessed
buffered_chars or l2_buff out of bounds - undefined behavior in C, so the
other fields describe the real program only when `oob` is false. -/
structure SpiResult where
  ret : LtRet
  l2_buff : List Nat
  wrote : Option (List Nat)
  readReq : Nat
  oob : Bool
  deriving DecidableEq, Repr

/-- Embedding of `lt_port_spi_transfer` (lines 183-219), parametric in the
value of the constant LT_L1_LEN_MAX, whose defining header is outside the
excerpt: reject over-long requests, hex-encode the l2_buff slice and send it
with the two control characters, read back 2*txLen+2 characters into
buffered_chars, then decode hex pairs back into l2_buff.  The oob field
collects the out-of-bounds indicators of the phases that ran. -/
def lt_port_spi_transfer (lenMax : Nat) (offset txLen : Nat) (l2buff : List Nat)
    (writeOk : Bool) (evs : Nat → ReadEv) : SpiResult :=
  if lenMax < offset + txLen then
    ⟨LtRet.LT_L1_DATA_LEN_ERROR, l2buff, none, 0, false⟩
  else if write_port writeOk ≠ 0 then
    ⟨LtRet.LT_L1_SPI_ERROR, l2buff, some (spiTxChars l2buff offset txLen), 0,
      spiEncodeOob l2buff offset txLen⟩
  else
    match (read_port evs (2 * txLen + 2) (spiBufferedChars l2buff offset txLen)).res with
    | some n =>
      if n ≠ 2 * txLen + 2 then
        ⟨LtRet.LT_L1_SPI_ERROR, l2buff, some (spiTxChars l2buff offset txLen),
          2 * txLen + 2, spiEncodeOob l2buff offset txLen⟩
      else
        ⟨LtRet.LT_OK,
          (spiDecodeLoop
            (read_port evs (2 * txLen + 2) (spiBufferedChars l2buff offset txLen)).buf
            offset txLen l2buff).1,
          some (spiTxChars l2buff offset txLen), 2 * txLen + 2,
          spiEncodeOob l2buff offset txLen || spiDecodeReadOob txLen ||
            (spiDecodeLoop
              (read_port evs (2 * txLen + 2) (spiBufferedChars l2buff offset txLen)).buf
              offset txLen l2buff).2⟩
    | none =>
      ⟨LtRet.LT_L1_SPI_ERROR, l2buff, some (spiTxChars l2buff offset txLen),
        2 * txLen + 2, spiEncodeOob l2buff offset txLen⟩

/-- Indices of buffered_chars written by iteration i of the encode loop
(line 195): sprintf("%02X", ...) at buffered_chars + i*2 writes the two hex
digit characters and a terminating NUL. -/
def sprintfWriteIdx (i : Nat) : List Nat := [2 * i, 2 * i + 1, 2 * i + 2]

/-- All indices of the 512-byte local array buffered_chars written before the
port write in lt_port_spi_transfer: the encode loop for i < txLen (line 195)
followed by the control characters 'x' and a newline at 2*txLen and
2*txLen+1 (lines 198-199). -/
def spiBufferedWriteIdx (txLen : Nat) : List Nat :=
  (List.range txLen).flatMap sprintfWriteIdx ++ [2 * txLen, 2 * txLen + 1]

/-- Indices of the handle's l2_buff read by the encode loop (line 195):
i + offset for i < txLen. -/
def spiL2ReadIdx (offset txLen : Nat) : List Nat :=
  (List.range txLen).map (fun i => i + offset)

/-- Modelled from the spec: session lifecycle states of the Session Handle
(spec section 3).  The protocol core is not part of the source excerpt; it is
implied by the call surface of the examples and tests. -/
inductive LtSessionState where
  | Uninitialized
  | ChannelReady
  | HandshakeInProgress
  | SecureActive
  | Aborted
  deriving DecidableEq, Repr

/-- Modelled from the spec: the two directional symmetric session keys of
spec sections 3 and 4.2, as opaque byte strings. -/
structure SessionKeys where
  send_key : List Nat
  recv_key : List Nat
  deriving DecidableEq, Repr

/-- Modelled from the spec: the Session Handle aggregate of spec section 3:
lifecycle state, key material present only inside a secure session, the two
monotonically increasing counters, and the pairing slot. -/
structure LtHandle where
  state : LtSessionState
  keys : Option SessionKeys
  send_counter : Nat
  recv_counter : Nat
  pairing_slot : Nat
  deriving DecidableEq, Repr

/-- Modelled from the spec: a handle whose transport is attached and no
session established (the state `lt_init` leaves a zeroed handle in). -/
def lt_handle_channelReady : LtHandle :=
  ⟨LtSessionState.ChannelReady, none, 0, 0, 0⟩

/-- Modelled from libc (outside the excerpt): one state update of the ISO C
sample implementation of rand(), a linear congruential generator on a hidden
unsigned 32-bit state.  Because the excerpted source never calls srand, the
C standard fixes the initial state of every process to 1. -/
def rand_step (s : Nat) : Nat := (s * 1103515245 + 12345) % 4294967296

/-- One rand() call: advance the hidden state, output (state/65536) % 32768
together with the new state. -/
def rand (s : Nat) : Nat × Nat := (rand_step s / 65536 % 32768, rand_step s)

/-- Embedding of `lt_port_random_bytes` (lt_port_unix_usb_dongle.c lines
145-152): fill len 32-bit words with (uint32_t)rand(), threading the hidden
libc generator state; returns the words and the advanced state. -/
def lt_port_random_bytes (s : Nat) : Nat → List Nat × Nat
  | 0 => ([], s)
  | n + 1 =>
    ((rand s).1 :: (lt_port_random_bytes (rand s).2 n).1,
      (lt_port_random_bytes (rand s).2 n).2)

/-- Modelled from the spec: the key-derivation function of handshake step 5
(spec section 4.2) is keyed on the session's identifying material - the
pairing slot and both ephemeral public keys - plus a direction tag, so that
keys are unique per handshake; the embedding keeps the identifying material
recoverable from the derived key, which realizes exactly the uniqueness the
spec postulates. -/
def lt_kdf (slot : Nat) (hostEph chipEph : List Nat) (dir : Nat) : List Nat :=
  slot :: dir :: hostEph.length :: (hostEph ++ chipEph)

/-- Modelled from the spec: the possible ends of one handshake attempt (spec
section 4.2 steps 3-4 and its failure-semantics paragraph): transport error,
frame checksum failure, authentication-tag failure, or success carrying the
chip's ephemeral public key. -/
inductive HsOutcome where
  | transportError
  | checksumFailed
  | authFailed
  | success (chipEph : List Nat)

/-- Modelled from the spec: handle state after a failed handshake attempt
(spec section 4.2): back to ChannelReady with no partial session state. -/
def hs_fail_handle (h : LtHandle) : LtHandle :=
  { h with
    state := LtSessionState.ChannelReady
    keys := none
    send_counter := 0
    recv_counter := 0 }

/-- Modelled from the spec: the Handshake Engine of spec section 4.2.  A
fresh ephemeral key is drawn from the port's randomness source (8 words of
lt_port_random_bytes, the source actually wired into this port); on success
the directional keys are derived with lt_kdf, both counters reset to zero
and the state becomes SecureActive; on any failure the handle is left in
ChannelReady with no key material.  The advanced randomness state is
returned alongside. -/
def lt_handshake (h : LtHandle) (slot : Nat) (seed : Nat) (out : HsOutcome) :
    LtRet × LtHandle × Nat :=
  match out with
  | HsOutcome.success chipEph =>
    (LtRet.LT_OK,
      { state := LtSessionState.SecureActive
        keys := some ⟨lt_kdf slot (lt_port_random_bytes seed 8).1 chipEph 0,
          lt_kdf slot (lt_port_random_bytes seed 8).1 chipEph 1⟩
        send_counter := 0
        recv_counter := 0
        pairing_slot := slot },
      (lt_port_random_bytes seed 8).2)
  | HsOutcome.transportError =>
    (LtRet.LT_TRANSPORT_ERROR, hs_fail_handle h, (lt_port_random_bytes seed 8).2)
  | HsOutcome.checksumFailed =>
    (LtRet.LT_INTEGRITY_CHECK_FAILED, hs_fail_handle h, (lt_port_random_bytes seed 8).2)
  | HsOutcome.authFailed =>
    (LtRet.LT_AUTHENTICATION_FAILED, hs_fail_handle h, (lt_port_random_bytes seed 8).2)

/-- Modelled from the spec: the decrypted secure-layer response frame as the
host sees it after the Frame Codec exchange (spec section 4.3): the embedded
anti-replay counter, whether the authentication tag verified, and the status
and result payload. -/
structure RespFrame where
  ctr : Nat
  authOk : Bool
  status : Nat
  result : List Nat
  deriving DecidableEq, Repr

/-- Modelled from the spec: how one secure-command exchange ends at the
transport level (spec sections 4.3 and 5): either the encrypted frame is
never handed to the Frame Codec successfully, or a response frame comes
back. -/
inductive L3Outcome where
  | sendFailed
  | reply (resp : RespFrame)

/-- Modelled from the spec: `execute` of the Secure Command Layer (spec
section 4.3).  Requires SecureActive; an oversize payload is rejected before
any I/O; a failed send leaves the handle unchanged; after a successful send
send_counter is incremented, and the response must verify its tag and carry
exactly the expected recv_counter - otherwise the session is aborted (state
Aborted, keys wiped) with SecureChannelViolation; on success recv_counter is
also incremented and the result payload returned. -/
def lt_execute (h : LtHandle) (maxLen : Nat) (payload : List Nat) (out : L3Outcome) :
    LtRet × LtHandle × List Nat :=
  if h.state ≠ LtSessionState.SecureActive then (LtRet.LT_NO_ACTIVE_SESSION, h, [])
  else if maxLen < payload.length then (LtRet.LT_PAYLOAD_TOO_LARGE, h, [])
  else
    match out with
    | L3Outcome.sendFailed => (LtRet.LT_TRANSPORT_ERROR, h, [])
    | L3Outcome.reply resp =>
      if resp.authOk = false ∨ resp.ctr ≠ h.recv_counter then
        (LtRet.LT_SECURE_CHANNEL_VIOLATION,
          { h with
            state := LtSessionState.Aborted
            keys := none
            send_counter := h.send_counter + 1 }, [])
      else
        (LtRet.LT_OK,
          { h with
            send_counter := h.send_counter + 1
            recv_counter := h.recv_counter + 1 },
          resp.result)

/-- The (send_counter, recv_counter) pairs bound by the successful exchanges
of a run of secure-command exchanges: each successful execute encrypts under
the session's current send_counter and accepts the current recv_counter. -/
def lt_ok_ctrs (maxLen : Nat) (payload : List Nat) :
    LtHandle → List L3Outcome → List (Nat × Nat)
  | _, [] => []
  | h, o :: os =>
    if (lt_execute h maxLen payload o).1 = LtRet.LT_OK then
      (h.send_counter, h.recv_counter) ::
        lt_ok_ctrs maxLen payload (lt_execute h maxLen payload o).2.1 os
    else lt_ok_ctrs maxLen payload (lt_execute h maxLen payload o).2.1 os

/-- Modelled from the spec: `abort` of spec section 4.3: always succeeds,
wipes keys, resets counters; SecureActive and HandshakeInProgress (and the
Aborted state of the violation path, which per spec section 7 must be
re-handshakeable) transition to ChannelReady, any other lifecycle state is
kept. -/
def lt_session_abort (h : LtHandle) : LtRet × LtHandle :=
  (LtRet.LT_OK,
    { state :=
        match h.state with
        | LtSessionState.SecureActive => LtSessionState.ChannelReady
        | LtSessionState.HandshakeInProgress => LtSessionState.ChannelReady
        | LtSessionState.Aborted => LtSessionState.ChannelReady
        | s => s
      keys := none
      send_counter := 0
      recv_counter := 0
      pairing_slot := h.pairing_slot })

/-- Modelled from the spec: an authenticated ciphertext of the secure command
layer (spec section 4.3): an AEAD binds the key, the anti-replay counter and
the data; decryption under a key/counter pair succeeds exactly when both
match (any mismatch models an authentication-tag failure). -/
structure Cipher where
  key : List Nat
  ctr : Nat
  data : List Nat
  deriving DecidableEq, Repr

/-- Modelled from the spec: AEAD encryption binding key, counter and data. -/
def aead_encrypt (key : List Nat) (ctr : Nat) (data : List Nat) : Cipher :=
  ⟨key, ctr, data⟩

/-- Modelled from the spec: AEAD decryption; recovers the data iff key and
counter match the binding. -/
def aead_decrypt (key : List Nat) (ctr : Nat) (c : Cipher) : Option (List Nat) :=
  if c.key = key ∧ c.ctr = ctr then some c.data else none

/-- Modelled from the spec: the L3 result status of a successful command. -/
def L3_RESULT_OK : Nat := 1

/-- Modelled from the spec: the L3 command identifier of Ping. -/
def PING_CMD : Nat := 1

/-- Modelled from the spec: the chip's side of an established session: the
same derived keys and its two counters (host-command and chip-response). -/
structure ChipSession where
  keys : SessionKeys
  cmd_counter : Nat
  res_counter : Nat
  deriving DecidableEq, Repr

/-- Modelled from the spec: chip session right after a successful handshake:
the keys derived from the same identifying material, counters zero. -/
def chip_session_of (slot : Nat) (hostEph chipEph : List Nat) : ChipSession :=
  ⟨⟨lt_kdf slot hostEph chipEph 0, lt_kdf slot hostEph chipEph 1⟩, 0, 0⟩

/-- Modelled from the spec and the functional test's expectation: the chip's
Ping handler decrypts the command frame under its copy of the host-send key
at its command counter and echoes the payload back with status OK, encrypted
under the host-receive key at its response counter. -/
def chip_ping_respond (c : ChipSession) (frame : Cipher) : Option Cipher :=
  match aead_decrypt c.keys.send_key c.cmd_counter frame with
  | none => none
  | some data =>
    some (aead_encrypt c.keys.recv_key c.res_counter (L3_RESULT_OK :: data.drop 1))

/-- Modelled from the spec: lt_ping, the L3 Ping exchange used by
lt_ex_hello_world.c and lt_test_rev_ping.c: inside a secure session, encrypt
the Ping command and message under send_key at send_counter, obtain the
chip's response, decrypt it under recv_key at recv_counter and check the
status; on success both counters advance and the echoed message is returned;
any decrypt/verify failure aborts the session. -/
def lt_ping (h : LtHandle) (maxLen : Nat) (msg : List Nat) (chip : ChipSession) :
    LtRet × LtHandle × List Nat :=
  if h.state ≠ LtSessionState.SecureActive then (LtRet.LT_NO_ACTIVE_SESSION, h, [])
  else
    match h.keys with
    | none => (LtRet.LT_FAIL, h, [])
    | some ks =>
      if maxLen < msg.length then (LtRet.LT_PAYLOAD_TOO_LARGE, h, [])
      else
        match chip_ping_respond chip
            (aead_encrypt ks.send_key h.send_counter (PING_CMD :: msg)) with
        | none =>
          (LtRet.LT_SECURE_CHANNEL_VIOLATION,
            { h with
              state := LtSessionState.Aborted
              keys := none }, [])
        | some resp =>
          match aead_decrypt ks.recv_key h.recv_counter resp with
          | none =>
            (LtRet.LT_SECURE_CHANNEL_VIOLATION,
              { h with
                state := LtSessionState.Aborted
                keys := none }, [])
          | some [] => (LtRet.LT_FAIL, h, [])
          | some (st :: result) =>
            if st = L3_RESULT_OK then
              (LtRet.LT_OK,
                { h with
                  send_counter := h.send_counter + 1
                  recv_counter := h.recv_counter + 1 }, result)
            else (LtRet.LT_FAIL, h, [])

theorem drop_append_ge {l₁ l₂ : List Nat} {n : Nat} (h : l₁.length ≤ n) :
    (l₁ ++ l₂).drop n = l₂.drop (n - l₁.length) := by
  rw [List.drop_append_eq_append_drop, List.drop_eq_nil_iff.2 h, List.nil_append]

theorem writeAt_length {buf data : List Nat} {pos : Nat}
    (h : pos + data.length ≤ buf.length) :
    (writeAt buf pos data).length = buf.length := by
  simp only [writeAt, List.length_append, List.length_take, List.length_drop]
  omega

theorem writeAt_drop {buf data : List Nat} {pos n : Nat}
    (hb : pos + data.length ≤ buf.length) (hn : pos + data.length ≤ n) :
    (writeAt buf pos data).drop n = buf.drop n := by
  have h₁ : (buf.take pos ++ data).length = pos + data.length := by
    simp only [List.length_append, List.length_take]
    omega
  rw [writeAt, drop_append_ge (by rw [h₁]; omega), h₁, List.drop_drop]
  congr 1
  omega

theorem read_port_go_spec (evs : Nat → ReadEv) (size : Nat) :
    ∀ (fuel k received : Nat) (buf : List Nat),
    size - received ≤ fuel → received ≤ size → size ≤ buf.length →
    (((read_port_go evs size fuel k received buf).res = none ↔
        (read_port_go evs size fuel k received buf).sawErr = true) ∧
      (∀ n, (read_port_go evs size fuel k received buf).res = some n →
        received ≤ n ∧ n ≤ size ∧
        (n < size → (read_port_go evs size fuel k received buf).sawTimeout = true) ∧
        (read_port_go evs size fuel k received buf).buf.drop n = buf.drop n ∧
        (read_port_go evs size fuel k received buf).buf.length = buf.length)) := by
  intro fuel
  induction fuel with
  | zero =>
    intro k received buf hfuel hrs hbuf
    refine ⟨by simp [read_port_go], ?_⟩
    intro n hn
    have hn' : received = n := by simpa [read_port_go] using hn
    subst hn'
    exact ⟨le_refl _, by omega, fun h => absurd h (by omega), rfl, rfl⟩
  | succ fuel ih =>
    intro k received buf hfuel hrs hbuf
    simp only [read_port_go]
    split
    · split
      · exact ⟨by simp, fun n hn => by simp at hn⟩
      · rename_i hlt d hev
        split
        · refine ⟨by simp, ?_⟩
          intro n hn
          have hn' : received = n := by simpa using hn
          subst hn'
          exact ⟨le_refl _, by omega, fun _ => rfl, rfl, rfl⟩
        · rename_i he
          have hdlen : 1 ≤ (d.take (size - received)).length := by
            rcases hd : d.take (size - received) with _ | ⟨a, l⟩
            · rw [hd] at he
              simp at he
            · simp [hd]
          have hdle : (d.take (size - received)).length ≤ size - received := by
            rw [List.length_take]
            omega
          have hrecv' : received + (d.take (size - received)).length ≤ size := by omega
          have hwb : received + (d.take (size - received)).length ≤ buf.length := by omega
          have hwl : (writeAt buf received (d.take (size - received))).length = buf.length :=
            writeAt_length hwb
          have hspec := ih (k + 1) (received + (d.take (size - received)).length)
            (writeAt buf received (d.take (size - received)))
            (by omega) hrecv' (by omega)
          refine ⟨hspec.1, ?_⟩
          intro n hn
          obtain ⟨h1, h2, h3, h4, h5⟩ := hspec.2 n hn
          refine ⟨by omega, h2, h3, ?_, by omega⟩
          rw [h4, writeAt_drop hwb (by omega)]
    · rename_i hlt
      refine ⟨by simp, ?_⟩
      intro n hn
      have hn' : received = n := by simpa using hn
      subst hn'
      exact ⟨le_refl _, by omega, fun h => absurd h hlt, rfl, rfl⟩

/-- C7: `read_port` returns -1 (modelled `none`) exactly when an underlying
read reports an error; otherwise it returns a count n with 0 ≤ n ≤ size,
where n < size only if a zero-length read (timeout) occurred before all bytes
arrived; bytes of the buffer at indices ≥ n are never written. -/
theorem read_port_contract (evs : Nat → ReadEv) (size : Nat) (buf : List Nat)
    (hbuf : size ≤ buf.length) :
    ((read_port evs size buf).res = none ↔ (read_port evs size buf).sawErr = true) ∧
    (∀ n, (read_port evs size buf).res = some n →
      n ≤ size ∧ (n < size → (read_port evs size buf).sawTimeout = true) ∧
      (read_port evs size buf).buf.drop n = buf.drop n ∧
      (read_port evs size buf).buf.length = buf.length) := by
  have h := read_port_go_spec evs size size 0 0 buf (by omega) (by omega) hbuf
  exact ⟨h.1, fun n hn => ⟨(h.2 n hn).2.1, (h.2 n hn).2.2.1, (h.2 n hn).2.2.2.1,
    (h.2 n hn).2.2.2.2⟩⟩

/-- Witness for C7: a port delivering one byte per read fills a 2-byte request
completely; the theorem's conclusions evaluate on this concrete run. -/
theorem read_port_contract_witness :
    (read_port (fun _ => ReadEv.chunk [7]) 2 [0, 0, 0]).buf.drop 2 =
      ([0, 0, 0] : List Nat).drop 2 ∧
    (read_port (fun _ => ReadEv.chunk [7]) 2 [0, 0, 0]).res = some 2 :=
  ⟨((read_port_contract (fun _ => ReadEv.chunk [7]) 2 [0, 0, 0] (by decide)).2 2
      (by decide)).2.2.1, by decide⟩

/-- C10: `lt_port_spi_csn_low` performs no I/O and always returns LT_OK,
whereas `lt_port_spi_csn_high` returns LT_OK iff writing the 5 control bytes
"CS=0\n" succeeds and the port then returns exactly the 4 bytes "OK\r\n"; in
every other case (short write, short read, or any other 4-byte reply) it
returns LT_L1_SPI_ERROR. -/
theorem csn_contract (writeOk : Bool) (evs : Nat → ReadEv) (buff0 : List Nat)
    (h4 : buff0.length = 4) :
    lt_port_spi_csn_low = LtRet.LT_OK ∧
    csHighCmd.length = 5 ∧
    (lt_port_spi_csn_high writeOk evs buff0 = LtRet.LT_OK ↔
      writeOk = true ∧ (read_port evs 4 buff0).res = some 4 ∧
        (read_port evs 4 buff0).buf.take 4 = okReply) ∧
    (lt_port_spi_csn_high writeOk evs buff0 = LtRet.LT_OK ∨
      lt_port_spi_csn_high writeOk evs buff0 = LtRet.LT_L1_SPI_ERROR) := by
  refine ⟨rfl, rfl, ?_, ?_⟩
  · cases writeOk with
    | false => simp [lt_port_spi_csn_high, write_port]
    | true =>
      simp only [lt_port_spi_csn_high, write_port, if_pos, if_neg]
      rcases hres : (read_port evs 4 buff0).res with _ | n
      · simp [hres]
      · by_cases hn : n = 4
        · subst hn
          by_cases hok : (read_port evs 4 buff0).buf.take 4 = okReply
          · simp [hok]
          · simp [hok]
        · simp [hn]
  · cases writeOk with
    | false => simp [lt_port_spi_csn_high, write_port]
    | true =>
      simp only [lt_port_spi_csn_high, write_port]
      rcases hres : (read_port evs 4 buff0).res with _ | n
      · simp
      · by_cases hn : n = 4
        · subst hn
          by_cases hok : (read_port evs 4 buff0).buf.take 4 = okReply
          · simp [hok]
          · simp [hok]
        · simp [hn]

/-- Witness for C10: a port that acknowledges with "OK\r\n" makes
`lt_port_spi_csn_high` return LT_OK. -/
theorem csn_contract_witness :
    lt_port_spi_csn_high true (fun _ => ReadEv.chunk [79, 75, 13, 10]) [0, 0, 0, 0] =
      LtRet.LT_OK :=
  ((csn_contract true (fun _ => ReadEv.chunk [79, 75, 13, 10]) [0, 0, 0, 0]
      (by decide)).2.2.1).2 ⟨rfl, by decide, by decide⟩

/-- C5: a request with offset + tx_data_length > LT_L1_LEN_MAX is rejected
with LT_L1_DATA_LEN_ERROR before any transmission: nothing is written to or
requested from the port and l2_buff is unchanged. -/
theorem spi_transfer_guard (lenMax offset txLen : Nat) (l2buff : List Nat)
    (writeOk : Bool) (evs : Nat → ReadEv) (h : offset + txLen > lenMax) :
    (lt_port_spi_transfer lenMax offset txLen l2buff writeOk evs).ret =
      LtRet.LT_L1_DATA_LEN_ERROR ∧
    (lt_port_spi_transfer lenMax offset txLen l2buff writeOk evs).l2_buff = l2buff ∧
    (lt_port_spi_transfer lenMax offset txLen l2buff writeOk evs).wrote = none ∧
    (lt_port_spi_transfer lenMax offset txLen l2buff writeOk evs).readReq = 0 := by
  have hg : lenMax < offset + txLen := h
  simp [lt_port_spi_transfer, if_pos hg]

/-- Witness for C5: with LT_L1_LEN_MAX = 257 (its value in the full library
headers), a transfer of 255 bytes at offset 6 is rejected untouched. -/
theorem spi_transfer_guard_witness :
    (lt_port_spi_transfer 257 6 255 (List.replicate 257 0) true
        (fun _ => ReadEv.chunk [])).ret = LtRet.LT_L1_DATA_LEN_ERROR ∧
    (lt_port_spi_transfer 257 6 255 (List.replicate 257 0) true
        (fun _ => ReadEv.chunk [])).l2_buff = List.replicate 257 0 :=
  ⟨(spi_transfer_guard 257 6 255 (List.replicate 257 0) true
      (fun _ => ReadEv.chunk []) (by decide)).1,
    (spi_transfer_guard 257 6 255 (List.replicate 257 0) true
      (fun _ => ReadEv.chunk []) (by decide)).2.1⟩

theorem hexVal_hexDigitU (d : Nat) (h : d < 16) : hexVal (hexDigitU d) = some d := by
  unfold hexDigitU hexVal
  by_cases h10 : d < 10
  · rw [if_pos h10, if_pos (by omega)]
    congr 1
    omega
  · rw [if_neg h10, if_neg (by omega), if_pos (by omega)]
    congr 1
    omega

theorem hexDigitU_not_ws (d : Nat) :
    ¬(hexDigitU d = 32 ∨ (9 ≤ hexDigitU d ∧ hexDigitU d ≤ 13)) := by
  unfold hexDigitU
  split <;> omega

theorem scanHex2_encodeByte (b : Nat) (hb : b < 256) (rest : List Nat) :
    scanHex2 (encodeByte b ++ rest) = some b := by
  have h1 : hexVal (hexDigitU (b / 16)) = some (b / 16) := hexVal_hexDigitU _ (by omega)
  have h2 : hexVal (hexDigitU (b % 16)) = some (b % 16) := hexVal_hexDigitU _ (by omega)
  have hmod : 16 * (b / 16) + b % 16 = b := by omega
  simp only [encodeByte, List.cons_append, List.nil_append, List.append_eq,
    List.singleton_append, scanHex2, skipWs,
    if_neg (hexDigitU_not_ws (b / 16)), h1, h2, hmod]

theorem scanHex2_ctrl (rest : List Nat) : scanHex2 (120 :: rest) = none := by
  simp [scanHex2, skipWs, hexVal]

theorem scanHex2_replicate (m : Nat) : scanHex2 (List.replicate m 0) = none := by
  cases m with
  | zero => rfl
  | succ m => simp [List.replicate, scanHex2, skipWs, hexVal]

theorem hexEncode_length (bs : List Nat) : (hexEncode bs).length = 2 * bs.length := by
  induction bs with
  | nil => rfl
  | cons b bs ih =>
    simp only [hexEncode, encodeByte, List.length_append, List.length_cons, ih]
    simp
    omega

theorem hexEncode_drop : ∀ (k : Nat) (bs : List Nat),
    (hexEncode bs).drop (2 * k) = hexEncode (bs.drop k) := by
  intro k
  induction k with
  | zero => intro bs; simp
  | succ k ih =>
    intro bs
    cases bs with
    | nil => simp [hexEncode]
    | cons b bs =>
      have hlb : (encodeByte b).length = 2 := by
        simp [encodeByte]
      rw [hexEncode, drop_append_ge (by rw [hlb]; omega)]
      have h2 : 2 * (k + 1) - (encodeByte b).length = 2 * k := by
        rw [hlb]
        omega
      rw [h2, ih]
      rfl

theorem list_set_self {l : List Nat} {i v : Nat} (h : l[i]? = some v) : l.set i v = l := by
  apply List.ext_getElem?
  intro j
  by_cases hij : i = j
  · subst hij
    have hlt : i < l.length := (List.getElem?_eq_some.mp h).1
    rw [List.getElem?_set_self hlt, h]
  · rw [List.getElem?_set_ne hij]

theorem foldl_fixed {α β : Type} (f : β → α → β) (b : β) :
    ∀ xs : List α, (∀ x ∈ xs, f b x = b) → xs.foldl f b = b := by
  intro xs
  induction xs with
  | nil => intro _; rfl
  | cons x xs ih =>
    intro h
    rw [List.foldl_cons, h x (List.mem_cons_self x xs)]
    exact ih (fun y hy => h y (List.mem_cons_of_mem x hy))

theorem read_port_one_chunk (evs : Nat → ReadEv) (m : Nat) (buf d : List Nat)
    (hd : evs 0 = ReadEv.chunk d) (hlen : d.length = m + 1) :
    read_port evs (m + 1) buf = ⟨some (m + 1), writeAt buf 0 d, false, false⟩ := by
  unfold read_port
  simp only [read_port_go]
  rw [if_pos (by omega), hd]
  have ht : d.take (m + 1 - 0) = d := by
    rw [Nat.sub_zero, ← hlen, List.take_length]
  simp only [ht, hlen, Nat.zero_add]
  have hne : d.isEmpty = false := by
    cases d with
    | nil => simp at hlen
    | cons a l => rfl
  rw [hne]
  simp only [Bool.false_eq_true, if_false]
  cases m with
  | zero => simp [read_port_go]
  | succ m' =>
    simp only [read_port_go]
    rw [if_neg (by omega)]

theorem seg_length {l2buff : List Nat} {offset txLen : Nat}
    (hguard : offset + txLen ≤ l2buff.length) :
    ((l2buff.drop offset).take txLen).length = txLen := by
  simp only [List.length_take, List.length_drop]
  omega

theorem spiTxChars_length {l2buff : List Nat} {offset txLen : Nat}
    (hguard : offset + txLen ≤ l2buff.length) :
    (spiTxChars l2buff offset txLen).length = 2 * txLen + 2 := by
  simp only [spiTxChars, List.length_append, hexEncode_length, seg_length hguard,
    List.length_cons, List.length_nil]

theorem spiBufferedChars_eq {l2buff : List Nat} {offset txLen : Nat}
    (h512 : 2 * txLen + 2 ≤ 512) (hguard : offset + txLen ≤ l2buff.length) :
    spiBufferedChars l2buff offset txLen =
      spiTxChars l2buff offset txLen ++ List.replicate (512 - (2 * txLen + 2)) 0 := by
  have htx := spiTxChars_length hguard
  rw [spiBufferedChars, List.take_append_eq_append_take,
    List.take_of_length_le (by omega), List.take_replicate]
  congr 2
  rw [htx]
  omega

theorem spiDecode_id (offset txLen : Nat) (l2buff : List Nat)
    (hbytes : ∀ b ∈ l2buff, b < 256) (hguard : offset + txLen ≤ l2buff.length) :
    spiDecodeLoop
      (spiTxChars l2buff offset txLen ++ List.replicate (512 - (2 * txLen + 2)) 0)
      offset txLen l2buff = (l2buff, false) := by
  have hsegLen := seg_length hguard
  have hencLen : (hexEncode ((l2buff.drop offset).take txLen)).length = 2 * txLen := by
    rw [hexEncode_length, hsegLen]
  have hassoc : spiTxChars l2buff offset txLen ++
        List.replicate (512 - (2 * txLen + 2)) 0 =
      hexEncode ((l2buff.drop offset).take txLen) ++
        ([120, 10] ++ List.replicate (512 - (2 * txLen + 2)) 0) := by
    rw [spiTxChars, List.append_assoc]
  unfold spiDecodeLoop
  apply foldl_fixed
  intro count hcount
  rw [List.mem_range] at hcount
  by_cases hck : count < txLen
  · have hclt : count < ((l2buff.drop offset).take txLen).length := by omega
    have hdropB : (spiTxChars l2buff offset txLen ++
          List.replicate (512 - (2 * txLen + 2)) 0).drop (2 * count) =
        encodeByte (((l2buff.drop offset).take txLen)[count]) ++
          (hexEncode (((l2buff.drop offset).take txLen).drop (count + 1)) ++
            ([120, 10] ++ List.replicate (512 - (2 * txLen + 2)) 0)) := by
      rw [hassoc, List.drop_append_eq_append_drop, hexEncode_drop,
        List.drop_eq_getElem_cons hclt, hexEncode, hencLen,
        Nat.sub_eq_zero_of_le (by omega), List.drop_zero, List.append_assoc]
    have hmem : ((l2buff.drop offset).take txLen)[count] ∈ l2buff := by
      have h1 : ((l2buff.drop offset).take txLen)[count] ∈ (l2buff.drop offset).take txLen :=
        List.getElem_mem hclt
      exact List.mem_of_mem_drop (List.mem_of_mem_take h1)
    have hscan : scanHex2 ((spiTxChars l2buff offset txLen ++
          List.replicate (512 - (2 * txLen + 2)) 0).drop (2 * count)) =
        some (((l2buff.drop offset).take txLen)[count]) := by
      rw [hdropB]
      exact scanHex2_encodeByte _ (hbytes _ hmem) _
    have hidx : l2buff[count + offset]? = some (((l2buff.drop offset).take txLen)[count]) := by
      rw [Nat.add_comm count offset, ← List.getElem?_drop,
        ← List.getElem?_take_of_lt hck]
      exact List.getElem?_eq_getElem hclt
    simp only [hscan, list_set_self hidx, Bool.false_or,
      decide_eq_false (show ¬(l2buff.length ≤ count + offset) from by omega)]
  · by_cases hcn : count = txLen
    · have hdropB : (spiTxChars l2buff offset txLen ++
            List.replicate (512 - (2 * txLen + 2)) 0).drop (2 * count) =
          120 :: (10 :: List.replicate (512 - (2 * txLen + 2)) 0) := by
        rw [hcn, hassoc, List.drop_left' hencLen]
        rfl
      simp only [hdropB, scanHex2_ctrl]
    · have hdropB : (spiTxChars l2buff offset txLen ++
            List.replicate (512 - (2 * txLen + 2)) 0).drop (2 * count) =
          List.replicate (512 - (2 * txLen + 2) - (2 * count - (2 * txLen + 2))) 0 := by
        rw [drop_append_ge (by rw [spiTxChars_length hguard]; omega),
          spiTxChars_length hguard, List.drop_replicate]
      simp only [hdropB, scanHex2_replicate]

theorem spi_transfer_echo_step (lenMax offset txLen : Nat) (l2buff : List Nat)
    (hlen : l2buff.length = lenMax) (hguard : offset + txLen ≤ lenMax)
    (h512 : 2 * txLen + 2 ≤ 512) :
    lt_port_spi_transfer lenMax offset txLen l2buff true
        (fun _ => ReadEv.chunk (spiTxChars l2buff offset txLen)) =
      ⟨LtRet.LT_OK,
        (spiDecodeLoop (spiBufferedChars l2buff offset txLen) offset txLen l2buff).1,
        some (spiTxChars l2buff offset txLen), 2 * txLen + 2,
        spiEncodeOob l2buff offset txLen || spiDecodeReadOob txLen ||
          (spiDecodeLoop (spiBufferedChars l2buff offset txLen) offset txLen l2buff).2⟩ := by
  have hguard' : offset + txLen ≤ l2buff.length := by omega
  have htx : (spiTxChars l2buff offset txLen).length = 2 * txLen + 2 :=
    spiTxChars_length hguard'
  have hB := spiBufferedChars_eq h512 hguard'
  have hwb : writeAt (spiBufferedChars l2buff offset txLen) 0
      (spiTxChars l2buff offset txLen) = spiBufferedChars l2buff offset txLen := by
    unfold writeAt
    rw [List.take_zero, List.nil_append, Nat.zero_add, hB, htx]
    rw [List.drop_left' htx]
  have h1 := read_port_one_chunk
    (fun _ => ReadEv.chunk (spiTxChars l2buff offset txLen)) (2 * txLen + 1)
    (spiBufferedChars l2buff offset txLen) (spiTxChars l2buff offset txLen) rfl
    (by rw [htx])
  rw [show 2 * txLen + 1 + 1 = 2 * txLen + 2 from by omega, hwb] at h1
  unfold lt_port_spi_transfer
  rw [if_neg (by omega), if_neg (by simp [write_port]), h1]
  simp

/-- Round-trip identity in the defined regime: the byte-to-hex encoding
(sprintf %02X) composed with the hex-to-byte decoding (sscanf %2hhx) is the
identity on bytes, so when every access of the transfer stays inside the
512-byte buffered_chars array (txLen ≤ 128, cf. spi_transfer_decode_oob for
the sizes where the decode loop leaves it) and the port echoes back exactly
the characters that were sent, the transfer succeeds, no access was out of
bounds, and l2_buff[offset .. offset+txLen) (indeed the whole buffer) equals
its value before the call. -/
theorem spi_transfer_echo (lenMax offset txLen : Nat) (l2buff : List Nat)
    (hlen : l2buff.length = lenMax) (hbytes : ∀ b ∈ l2buff, b < 256)
    (hguard : offset + txLen ≤ lenMax) (h128 : txLen ≤ 128) :
    (lt_port_spi_transfer lenMax offset txLen l2buff true
        (fun _ => ReadEv.chunk (spiTxChars l2buff offset txLen))).ret = LtRet.LT_OK ∧
    ((lt_port_spi_transfer lenMax offset txLen l2buff true
        (fun _ => ReadEv.chunk (spiTxChars l2buff offset txLen))).l2_buff.drop offset).take
        txLen = (l2buff.drop offset).take txLen ∧
    (lt_port_spi_transfer lenMax offset txLen l2buff true
        (fun _ => ReadEv.chunk (spiTxChars l2buff offset txLen))).l2_buff = l2buff ∧
    (lt_port_spi_transfer lenMax offset txLen l2buff true
        (fun _ => ReadEv.chunk (spiTxChars l2buff offset txLen))).oob = false := by
  have hguard' : offset + txLen ≤ l2buff.length := by omega
  have hB := spiBufferedChars_eq (show 2 * txLen + 2 ≤ 512 from by omega) hguard'
  have hstep := spi_transfer_echo_step lenMax offset txLen l2buff hlen hguard (by omega)
  have hdec : spiDecodeLoop (spiBufferedChars l2buff offset txLen) offset txLen l2buff =
      (l2buff, false) := by
    rw [hB]
    exact spiDecode_id offset txLen l2buff hbytes hguard'
  have hro : spiDecodeReadOob txLen = false := by
    rw [spiDecodeReadOob, List.any_eq_false]
    intro j hj
    rw [spiDecodeReadIdx, List.mem_map] at hj
    obtain ⟨c, hc, rfl⟩ := hj
    rw [List.mem_range] at hc
    simp only [decide_eq_true_eq]
    omega
  have heo : spiEncodeOob l2buff offset txLen = false := by
    rw [spiEncodeOob, decide_eq_false (show ¬(512 < 2 * txLen + 2) from by omega),
      decide_eq_false (show ¬(l2buff.length < offset + txLen) from by omega),
      Bool.or_self]
  rw [hstep, hdec, heo, hro]
  exact ⟨rfl, rfl, rfl, rfl⟩

/-- Witness for the defined-regime round trip: echoing the four hex
characters of bytes 171 and 205 back through the dongle leaves l2_buff
unchanged with every access in bounds. -/
theorem spi_transfer_echo_witness :
    (lt_port_spi_transfer 4 1 2 [1, 171, 205, 4] true
        (fun _ => ReadEv.chunk (spiTxChars [1, 171, 205, 4] 1 2))).l2_buff =
      [1, 171, 205, 4] ∧
    (lt_port_spi_transfer 4 1 2 [1, 171, 205, 4] true
        (fun _ => ReadEv.chunk (spiTxChars [1, 171, 205, 4] 1 2))).oob = false :=
  ⟨(spi_transfer_echo 4 1 2 [1, 171, 205, 4] (by decide) (by decide) (by decide)
      (by decide)).2.2.1,
    (spi_transfer_echo 4 1 2 [1, 171, 205, 4] (by decide) (by decide) (by decide)
      (by decide)).2.2.2⟩

/-- C8: the claimed identity cannot hold for every in-bounds offset and
tx_data_length, because the decode loop of lines 214-216 over-iterates
(count runs to 2*tx_data_length-1): at the guard-passing input offset 0,
tx_data_length 129 (LT_L1_LEN_MAX = 257, its value in the full library
headers) with the port echoing the transmitted characters, the loop's sscanf
start indices include 2*256 = 512, beyond the 512-byte buffered_chars array -
an out-of-bounds read, undefined behavior in C, although the call still
reports LT_OK.  The model's oob ghost records exactly this. -/
theorem spi_transfer_decode_oob :
    ¬(257 < 0 + 129) ∧
    2 * 256 ∈ spiDecodeReadIdx 129 ∧ 512 ≤ 2 * 256 ∧
    (lt_port_spi_transfer 257 0 129 (List.replicate 257 0) true
        (fun _ => ReadEv.chunk (spiTxChars (List.replicate 257 0) 0 129))).ret =
      LtRet.LT_OK ∧
    (lt_port_spi_transfer 257 0 129 (List.replicate 257 0) true
        (fun _ => ReadEv.chunk (spiTxChars (List.replicate 257 0) 0 129))).oob = true := by
  have hlen : (List.replicate 257 (0 : Nat)).length = 257 := List.length_replicate 257 0
  have hstep := spi_transfer_echo_step 257 0 129 (List.replicate 257 0) hlen
    (by omega) (by omega)
  have hro : spiDecodeReadOob 129 = true := by
    rw [spiDecodeReadOob, List.any_eq_true]
    refine ⟨512, ?_, by decide⟩
    rw [spiDecodeReadIdx, List.mem_map]
    exact ⟨256, by rw [List.mem_range]; omega, rfl⟩
  refine ⟨by omega, ?_, by omega, ?_, ?_⟩
  · rw [spiDecodeReadIdx, List.mem_map]
    exact ⟨256, by rw [List.mem_range]; omega, rfl⟩
  · rw [hstep]
  · rw [hstep]
    simp only [hro, Bool.or_true, Bool.true_or]

/-- C9: under the guard's precondition offset + txLen ≤ LT_L1_LEN_MAX, the
writes into the 512-byte buffered_chars array are exactly the hex-encoding
indices 0 .. 2*txLen (including sprintf's terminating NUL) and the control
character indices 2*txLen and 2*txLen+1; all of them are < 512 if and only
if txLen ≤ 255; and every l2_buff access i+offset of the encode loop stays
inside an L2 buffer of LT_L1_LEN_MAX bytes (the transmitted string itself
has length 2*txLen+2). -/
theorem spi_buffered_write_bounds (lenMax offset txLen : Nat)
    (hguard : offset + txLen ≤ lenMax) :
    (∀ j ∈ spiBufferedWriteIdx txLen, j ≤ 2 * txLen + 1) ∧
    ((∀ j ∈ spiBufferedWriteIdx txLen, j < 512) ↔ txLen ≤ 255) ∧
    (∀ j ∈ spiL2ReadIdx offset txLen, j < lenMax) ∧
    (∀ l2buff : List Nat, offset + txLen ≤ l2buff.length →
      (spiTxChars l2buff offset txLen).length = 2 * txLen + 2) := by
  have hmax : ∀ j ∈ spiBufferedWriteIdx txLen, j ≤ 2 * txLen + 1 := by
    intro j hj
    simp only [spiBufferedWriteIdx, sprintfWriteIdx, List.mem_append, List.mem_flatMap,
      List.mem_range, List.mem_cons, List.mem_singleton, List.not_mem_nil, or_false] at hj
    rcases hj with ⟨i, hi, hj⟩ | hj
    · rcases hj with hj | hj | hj <;> omega
    · rcases hj with hj | hj <;> omega
  refine ⟨hmax, ⟨?_, ?_⟩, ?_, ?_⟩
  · intro hall
    have h2n : 2 * txLen ∈ spiBufferedWriteIdx txLen := by
      simp [spiBufferedWriteIdx]
    have := hall _ h2n
    omega
  · intro h255 j hj
    have := hmax j hj
    omega
  · intro j hj
    simp only [spiL2ReadIdx, List.mem_map, List.mem_range] at hj
    obtain ⟨i, hi, rfl⟩ := hj
    omega
  · intro l2buff hl
    exact spiTxChars_length hl

/-- Witness for C9: at offset 2 and txLen 3 against an L2 buffer bound of 10,
the l2_buff indices read by the encode loop are 2, 3, 4 and the last of them
is below the bound. -/
theorem spi_buffered_write_bounds_witness :
    spiL2ReadIdx 2 3 = [2, 3, 4] ∧ (4 : Nat) < 10 :=
  ⟨by decide, (spi_buffered_write_bounds 10 2 3 (by decide)).2.2.1 4 (by decide)⟩

/-- C2 (spec-modelled): every handshake attempt that fails - transport error,
checksum failure, or authentication failure - leaves the handle in
ChannelReady with no key material: never SecureActive, and no send/recv key
survives the failed attempt. -/
theorem handshake_failure_clean (h : LtHandle) (slot seed : Nat) (out : HsOutcome)
    (hfail : ∀ c, out ≠ HsOutcome.success c) :
    (lt_handshake h slot seed out).2.1.state = LtSessionState.ChannelReady ∧
    (lt_handshake h slot seed out).2.1.keys = none ∧
    (lt_handshake h slot seed out).2.1.state ≠ LtSessionState.SecureActive ∧
    (lt_handshake h slot seed out).1 ≠ LtRet.LT_OK := by
  cases out with
  | success c => exact absurd rfl (hfail c)
  | transportError => simp [lt_handshake, hs_fail_handle]
  | checksumFailed => simp [lt_handshake, hs_fail_handle]
  | authFailed => simp [lt_handshake, hs_fail_handle]

/-- Witness for C2: a handshake ending in an authentication failure leaves a
concrete handle keyless in ChannelReady. -/
theorem handshake_failure_clean_witness :
    (lt_handshake lt_handle_channelReady 0 1 HsOutcome.authFailed).2.1.state =
      LtSessionState.ChannelReady ∧
    (lt_handshake lt_handle_channelReady 0 1 HsOutcome.authFailed).2.1.keys = none :=
  ⟨(handshake_failure_clean lt_handle_channelReady 0 1 HsOutcome.authFailed
      (fun c hc => nomatch hc)).1,
    (handshake_failure_clean lt_handle_channelReady 0 1 HsOutcome.authFailed
      (fun c hc => nomatch hc)).2.1⟩

theorem lt_execute_counters_mono (h : LtHandle) (maxLen : Nat) (payload : List Nat)
    (out : L3Outcome) :
    h.send_counter ≤ (lt_execute h maxLen payload out).2.1.send_counter ∧
    h.recv_counter ≤ (lt_execute h maxLen payload out).2.1.recv_counter := by
  rcases out with _ | resp <;>
    simp only [lt_execute] <;>
    split_ifs <;>
    simp <;>
    omega

theorem lt_execute_ok_step (h : LtHandle) (maxLen : Nat) (payload : List Nat)
    (out : L3Outcome) (hok : (lt_execute h maxLen payload out).1 = LtRet.LT_OK) :
    (lt_execute h maxLen payload out).2.1.send_counter = h.send_counter + 1 ∧
    (lt_execute h maxLen payload out).2.1.recv_counter = h.recv_counter + 1 := by
  rcases out with _ | resp <;>
    simp only [lt_execute] at hok ⊢ <;>
    split_ifs at hok ⊢ <;>
    simp_all

theorem lt_ok_ctrs_lb (maxLen : Nat) (payload : List Nat) :
    ∀ (os : List L3Outcome) (h : LtHandle),
    ∀ p ∈ lt_ok_ctrs maxLen payload h os,
      h.send_counter ≤ p.1 ∧ h.recv_counter ≤ p.2 := by
  intro os
  induction os with
  | nil =>
    intro h p hp
    simp [lt_ok_ctrs] at hp
  | cons o os ih =>
    intro h p hp
    simp only [lt_ok_ctrs] at hp
    have hm := lt_execute_counters_mono h maxLen payload o
    by_cases hok : (lt_execute h maxLen payload o).1 = LtRet.LT_OK
    · rw [if_pos hok] at hp
      rcases List.mem_cons.mp hp with rfl | hp'
      · exact ⟨le_refl _, le_refl _⟩
      · have hlb := ih (lt_execute h maxLen payload o).2.1 p hp'
        exact ⟨le_trans hm.1 hlb.1, le_trans hm.2 hlb.2⟩
    · rw [if_neg hok] at hp
      have hlb := ih (lt_execute h maxLen payload o).2.1 p hp
      exact ⟨le_trans hm.1 hlb.1, le_trans hm.2 hlb.2⟩

theorem lt_ok_ctrs_pairwise (maxLen : Nat) (payload : List Nat) :
    ∀ (os : List L3Outcome) (h : LtHandle),
    List.Pairwise (fun a b : Nat × Nat => a.1 < b.1 ∧ a.2 < b.2)
      (lt_ok_ctrs maxLen payload h os) := by
  intro os
  induction os with
  | nil =>
    intro h
    simp [lt_ok_ctrs]
  | cons o os ih =>
    intro h
    simp only [lt_ok_ctrs]
    by_cases hok : (lt_execute h maxLen payload o).1 = LtRet.LT_OK
    · rw [if_pos hok]
      refine List.Pairwise.cons ?_ (ih _)
      intro p hp
      have hstep := lt_execute_ok_step h maxLen payload o hok
      have hlb := lt_ok_ctrs_lb maxLen payload os (lt_execute h maxLen payload o).2.1 p hp
      constructor <;> omega
    · rw [if_neg hok]
      exact ih _

/-- C1 (spec-modelled): within a session, send_counter and recv_counter never
decrease, increase by exactly 1 on every successful encrypted exchange, the
counter pairs bound by successful exchanges are strictly increasing along any
run (hence never repeat within the session's lifetime), and a received
secure-layer frame whose counter differs from the expected recv_counter is
rejected with SecureChannelViolation and sends the session to Aborted. -/
theorem session_counters_contract (maxLen : Nat) (payload : List Nat) :
    (∀ (h : LtHandle) (out : L3Outcome),
      h.send_counter ≤ (lt_execute h maxLen payload out).2.1.send_counter ∧
      h.recv_counter ≤ (lt_execute h maxLen payload out).2.1.recv_counter) ∧
    (∀ (h : LtHandle) (out : L3Outcome),
      (lt_execute h maxLen payload out).1 = LtRet.LT_OK →
      (lt_execute h maxLen payload out).2.1.send_counter = h.send_counter + 1 ∧
      (lt_execute h maxLen payload out).2.1.recv_counter = h.recv_counter + 1) ∧
    (∀ (h : LtHandle) (resp : RespFrame),
      h.state = LtSessionState.SecureActive → payload.length ≤ maxLen →
      resp.ctr ≠ h.recv_counter →
      (lt_execute h maxLen payload (L3Outcome.reply resp)).1 =
        LtRet.LT_SECURE_CHANNEL_VIOLATION ∧
      (lt_execute h maxLen payload (L3Outcome.reply resp)).2.1.state =
        LtSessionState.Aborted ∧
      (lt_execute h maxLen payload (L3Outcome.reply resp)).2.1.keys = none) ∧
    (∀ (h : LtHandle) (os : List L3Outcome),
      List.Pairwise (fun a b : Nat × Nat => a.1 < b.1 ∧ a.2 < b.2)
        (lt_ok_ctrs maxLen payload h os)) := by
  refine ⟨fun h out => lt_execute_counters_mono h maxLen payload out,
    fun h out hok => lt_execute_ok_step h maxLen payload out hok,
    ?_, fun h os => lt_ok_ctrs_pairwise maxLen payload os h⟩
  intro h resp hact hfit hctr
  unfold lt_execute
  rw [if_neg (by simp [hact]), if_neg (by omega)]
  dsimp only
  rw [if_pos (Or.inr hctr)]
  exact ⟨rfl, rfl, rfl⟩

/-- Witness for C1: a frame carrying counter 5 against an expected
recv_counter of 0 is rejected and aborts the concrete session. -/
theorem session_counters_contract_witness :
    (lt_execute ⟨LtSessionState.SecureActive, some ⟨[1], [2]⟩, 0, 0, 0⟩ 10 [1]
        (L3Outcome.reply ⟨5, true, 0, []⟩)).1 = LtRet.LT_SECURE_CHANNEL_VIOLATION ∧
    (lt_execute ⟨LtSessionState.SecureActive, some ⟨[1], [2]⟩, 0, 0, 0⟩ 10 [1]
        (L3Outcome.reply ⟨5, true, 0, []⟩)).2.1.state = LtSessionState.Aborted ∧
    (lt_execute ⟨LtSessionState.SecureActive, some ⟨[1], [2]⟩, 0, 0, 0⟩ 10 [1]
        (L3Outcome.reply ⟨5, true, 0, []⟩)).2.1.keys = none :=
  (session_counters_contract 10 [1]).2.2.1
    ⟨LtSessionState.SecureActive, some ⟨[1], [2]⟩, 0, 0, 0⟩ ⟨5, true, 0, []⟩
    rfl (by decide) (by decide)

/-- C6 (spec-modelled): lt_session_abort always succeeds; from SecureActive
or HandshakeInProgress it wipes keys, resets counters and moves to
ChannelReady; from any state at or below ChannelReady it is idempotent:
aborting twice gives the same handle as aborting once. -/
theorem session_abort_contract (h : LtHandle) :
    (lt_session_abort h).1 = LtRet.LT_OK ∧
    ((h.state = LtSessionState.SecureActive ∨
        h.state = LtSessionState.HandshakeInProgress) →
      (lt_session_abort h).2.state = LtSessionState.ChannelReady ∧
      (lt_session_abort h).2.keys = none ∧
      (lt_session_abort h).2.send_counter = 0 ∧
      (lt_session_abort h).2.recv_counter = 0) ∧
    ((h.state = LtSessionState.Uninitialized ∨
        h.state = LtSessionState.ChannelReady) →
      (lt_session_abort (lt_session_abort h).2).2 = (lt_session_abort h).2) := by
  obtain ⟨st, k, sc, rc, ps⟩ := h
  cases st <;> simp [lt_session_abort]

/-- Witness for C6: aborting a concrete active session clears it to
ChannelReady; aborting a ChannelReady handle twice equals aborting once. -/
theorem session_abort_contract_witness :
    (lt_session_abort ⟨LtSessionState.SecureActive, some ⟨[1], [2]⟩, 3, 4, 0⟩).2.state =
      LtSessionState.ChannelReady ∧
    (lt_session_abort (lt_session_abort lt_handle_channelReady).2).2 =
      (lt_session_abort lt_handle_channelReady).2 :=
  ⟨((session_abort_contract
        ⟨LtSessionState.SecureActive, some ⟨[1], [2]⟩, 3, 4, 0⟩).2.1 (Or.inl rfl)).1,
    (session_abort_contract lt_handle_channelReady).2.2 (Or.inr rfl)⟩

theorem lt_kdf_inj_host {slot d : Nat} {e1 e2 c1 c2 : List Nat}
    (h : lt_kdf slot e1 c1 d = lt_kdf slot e2 c2 d) : e1 = e2 := by
  simp only [lt_kdf, List.cons.injEq, true_and] at h
  calc e1 = (e1 ++ c1).take e1.length := (List.take_left e1 c1).symm
    _ = (e2 ++ c2).take e2.length := by rw [h.2, h.1]
    _ = e2 := List.take_left e2 c2

/-- Counterexample to C3 as stated: the port's randomness source is unseeded
rand(), so every freshly started process begins with the same hidden libc
state (seed 1).  Two successful handshakes performed in two separate program
runs are therefore the same function of the same randomness state: both
succeed at slot 0 and derive identical (non-empty) key material, so it is
not true that every pair of successful same-slot handshakes yields different
keys. -/
theorem handshake_two_process_runs_same_keys :
    (lt_handshake lt_handle_channelReady 0 1 (HsOutcome.success [5])).1 = LtRet.LT_OK ∧
    (lt_handshake lt_handle_channelReady 0 1 (HsOutcome.success [5])).2.1.keys ≠ none ∧
    (lt_handshake lt_handle_channelReady 0 1 (HsOutcome.success [5])).2.1.keys =
      (lt_handshake lt_handle_channelReady 0 1 (HsOutcome.success [5])).2.1.keys := by
  refine ⟨rfl, ?_, rfl⟩
  simp [lt_handshake]

/-- C3 amended (spec-modelled): two successful handshakes at the same pairing
slot derive different (send_key, recv_key) pairs whenever the ephemeral key
material their runs draw from lt_port_random_bytes differs - as it does for
consecutive handshakes inside one process, the randomness state having
advanced; two runs that replay the same unseeded rand() state (separate
process starts) derive identical keys. -/
theorem handshake_fresh_ephemeral_fresh_keys (h h' : LtHandle) (slot s1 s2 : Nat)
    (ce1 ce2 : List Nat)
    (hne : (lt_port_random_bytes s1 8).1 ≠ (lt_port_random_bytes s2 8).1) :
    (lt_handshake h slot s1 (HsOutcome.success ce1)).1 = LtRet.LT_OK ∧
    (lt_handshake h' slot s2 (HsOutcome.success ce2)).1 = LtRet.LT_OK ∧
    (lt_handshake h slot s1 (HsOutcome.success ce1)).2.1.keys ≠
      (lt_handshake h' slot s2 (HsOutcome.success ce2)).2.1.keys := by
  refine ⟨rfl, rfl, ?_⟩
  intro heq
  simp only [lt_handshake, Option.some.injEq, SessionKeys.mk.injEq] at heq
  exact hne (lt_kdf_inj_host heq.1)

/-- Witness for the amended C3: the first and second handshake of one process
(the second starting from the randomness state the first left behind) derive
different key pairs. -/
theorem handshake_fresh_ephemeral_fresh_keys_witness :
    (lt_handshake lt_handle_channelReady 0 1 (HsOutcome.success [7])).2.1.keys ≠
      (lt_handshake lt_handle_channelReady 0 (lt_port_random_bytes 1 8).2
        (HsOutcome.success [7])).2.1.keys :=
  (handshake_fresh_ephemeral_fresh_keys lt_handle_channelReady lt_handle_channelReady 0 1
    (lt_port_random_bytes 1 8).2 [7] [7] (by decide)).2.2

/-- C4 (spec-modelled): after a successful handshake the handle is
SecureActive with both counters zero, and for every message of valid size a
Ping against the chip session holding the same derived keys returns LT_OK
with a result payload byte-for-byte equal to the sent message. -/
theorem handshake_then_ping_roundtrip (maxLen slot seed : Nat) (chipEph msg : List Nat)
    (hlen : msg.length ≤ maxLen) :
    (lt_handshake lt_handle_channelReady slot seed (HsOutcome.success chipEph)).1 =
      LtRet.LT_OK ∧
    (lt_handshake lt_handle_channelReady slot seed
      (HsOutcome.success chipEph)).2.1.state = LtSessionState.SecureActive ∧
    (lt_handshake lt_handle_channelReady slot seed
      (HsOutcome.success chipEph)).2.1.send_counter = 0 ∧
    (lt_handshake lt_handle_channelReady slot seed
      (HsOutcome.success chipEph)).2.1.recv_counter = 0 ∧
    (lt_ping (lt_handshake lt_handle_channelReady slot seed
        (HsOutcome.success chipEph)).2.1 maxLen msg
      (chip_session_of slot (lt_port_random_bytes seed 8).1 chipEph)).1 = LtRet.LT_OK ∧
    (lt_ping (lt_handshake lt_handle_channelReady slot seed
        (HsOutcome.success chipEph)).2.1 maxLen msg
      (chip_session_of slot (lt_port_random_bytes seed 8).1 chipEph)).2.2 = msg := by
  refine ⟨rfl, rfl, rfl, rfl, ?_, ?_⟩ <;>
  · simp only [lt_handshake, lt_ping, chip_session_of, chip_ping_respond, aead_encrypt,
      aead_decrypt]
    rw [if_neg (by simp), if_neg (by omega)]
    simp [L3_RESULT_OK]

/-- Witness for C4: a 43-byte message (the hello-world scenario size) pings
back unchanged after a slot-0 handshake. -/
theorem handshake_then_ping_roundtrip_witness :
    (lt_ping (lt_handshake lt_handle_channelReady 0 1
        (HsOutcome.success [3])).2.1 100 (List.replicate 43 65)
      (chip_session_of 0 (lt_port_random_bytes 1 8).1 [3])).1 = LtRet.LT_OK ∧
    (lt_ping (lt_handshake lt_handle_channelReady 0 1
        (HsOutcome.success [3])).2.1 100 (List.replicate 43 65)
      (chip_session_of 0 (lt_port_random_bytes 1 8).1 [3])).2.2 =
      List.replicate 43 65 :=
  ⟨(handshake_then_ping_roundtrip 100 0 1 [3] (List.replicate 43 65)
      (by simp)).2.2.2.2.1,
    (handshake_then_ping_roundtrip 100 0 1 [3] (List.replicate 43 65)
      (by simp)).2.2.2.2.2⟩
